import Mathlib

/-!
Shallow embedding of `bin/ripe_loader.py` (IPASN-History RIPE loader).

The embedding follows the Python source line by line:
* `routeview` — MRT dump walk, origin-AS extraction from the last AS path;
* `RipeLoader.already_loaded`, `RipeLoader.update_last`, `RipeLoader.load_all`
  — aggregation of (prefix, asn) pairs per address family and the Redis
  commit, modelled as explicit state passing over `StoreState`.

External collaborators are modelled at their interface: the bgpdump decoder
is an oracle delivering either a `DecodeError` or the entry list; the Redis
store is the explicit `StoreState` record; `ipaddress.ip_network` is
implemented for IPv4 dotted-quad text (the only textual family any claim
evaluates; an IPv6 literal is treated as a parse failure by the model).
-/

namespace RipeLoader

/-- Python exceptions that the loader code can raise. -/
inductive PyError
  | indexError
  | nameError
  | valueError
  | decodeError
  deriving DecidableEq, Repr

/-! ### Python string primitives used by the source -/

/-- Python `str.isnumeric()` on ASCII text: nonempty and every character a
decimal digit.  (Python also accepts non-ASCII Unicode numerics; the dump
data and every claim are ASCII.) -/
def isnumeric (s : String) : Bool :=
  !s.data.isEmpty && s.data.all Char.isDigit

/-- Python slice `s[1:-1]`: drop the first and the last character. -/
def stripEnds (s : String) : String :=
  String.mk ((s.data.drop 1).dropLast)

/-- Helper for `pySplit`: walk the characters, accumulating the current
word reversed, emitting a word at each whitespace boundary. -/
def splitWsAux : List Char → List Char → List String
  | [], acc => if acc.isEmpty then [] else [String.mk acc.reverse]
  | c :: cs, acc =>
    if c.isWhitespace then
      if acc.isEmpty then splitWsAux cs []
      else String.mk acc.reverse :: splitWsAux cs []
    else splitWsAux cs (c :: acc)

/-- Python `str.split()` with no argument: split on whitespace runs,
discarding empty pieces. -/
def pySplit (s : String) : List String :=
  splitWsAux s.data []

/-! ### routeview -/

/-- The scan body of `routeview`'s `for asn in reversed(all_paths[-1])`
loop, already given the token list in scan order: the first token that is
all digits is returned as is; otherwise the first token whose `[1:-1]`
slice is all digits is returned stripped; otherwise no assignment happens. -/
def findBestAs : List String → Option String
  | [] => none
  | asn :: rest =>
    if isnumeric asn then some asn
    else if isnumeric (stripEnds asn) then some (stripEnds asn)
    else findBestAs rest

/-- Origin resolution for one AS-path token list: scan the tokens in
reverse (origin end first), as the source's `reversed(all_paths[-1])`. -/
def resolveOrigin (tokens : List String) : Option String :=
  findBestAs tokens.reverse

/-- The fields of a `TableDumpV2` entry body that `routeview` reads:
`entry.body.prefix` (stringly), `entry.body.prefixLength`,
`entry.body.routeEntries` (each contributing its `attr.asPath` string) and
`entry.body.afi`. -/
structure TableDumpV2Body where
  prefixAddr : String
  prefixLength : Nat
  routeEntries : List String
  afi : Nat
  deriving DecidableEq, Repr

/-- `entry.body` is either a TableDumpV1 (no fields read by the source) or
a TableDumpV2. -/
inductive MrtBody
  | v1
  | v2 (b : TableDumpV2Body)
  deriving DecidableEq, Repr

/-- `socket.AF_INET` on Linux. -/
def AF_INET : Nat := 2

/-- The mutable locals of `routeview`'s entry loop: the two route lists of
the `routes` dict and the `best_as` variable (`none` = not yet bound). -/
structure RVState where
  v4 : List (String × String)
  v6 : List (String × String)
  bestAs : Option String
  deriving DecidableEq, Repr

/-- One iteration of `routeview`'s `for entry in bgp` loop.
A TableDumpV1 body is skipped by the `isinstance` guard.  For a
TableDumpV2 body: `all_paths[-1]` on an empty `routeEntries` raises
`IndexError`; the reversed scan either rebinds `best_as` or leaves it at
its previous value; appending with `best_as` never bound raises
`NameError`. -/
def routeviewStep (st : RVState) : MrtBody → Except PyError RVState
  | MrtBody.v1 => Except.ok st
  | MrtBody.v2 b =>
    let pfxStr := b.prefixAddr ++ "/" ++ toString b.prefixLength
    let all_paths := b.routeEntries.map pySplit
    match all_paths.getLast? with
    | none => Except.error PyError.indexError
    | some lastPath =>
      let best := match resolveOrigin lastPath with
        | some a => some a
        | none => st.bestAs
      match best with
      | none => Except.error PyError.nameError
      | some a =>
        if b.afi = AF_INET then
          Except.ok ⟨st.v4 ++ [(pfxStr, a)], st.v6, best⟩
        else
          Except.ok ⟨st.v4, st.v6 ++ [(pfxStr, a)], best⟩

/-- `routeview`'s entry loop over the decoded entry list. -/
def routeviewRun (st : RVState) : List MrtBody → Except PyError RVState
  | [] => Except.ok st
  | e :: es =>
    match routeviewStep st e with
    | Except.error err => Except.error err
    | Except.ok st2 => routeviewRun st2 es

/-- `routeview` on a decoded entry list, from the initial
`routes = ∗v4: [], v6: []∗` state with `best_as` unbound. -/
def routeview (entries : List MrtBody) : Except PyError RVState :=
  routeviewRun ⟨[], [], none⟩ entries

end RipeLoader

namespace RipeLoader

/-! ### ipaddress.ip_network -/

/-- A parsed `ipaddress` network object: numeric network address, mask
length, and the address family tag (`isV6` selects the 128-bit width). -/
structure IPNetwork where
  addr : Nat
  maskLen : Nat
  isV6 : Bool
  deriving DecidableEq, Repr

/-- `num_addresses` of an `ipaddress` network. -/
def numAddresses (nw : IPNetwork) : Nat :=
  2 ^ ((if nw.isV6 then 128 else 32) - nw.maskLen)

/-- Decimal value of a digit character list (accumulator form). -/
def decDigits : List Char → Nat → Nat
  | [], acc => acc
  | c :: cs, acc => decDigits cs (acc * 10 + (c.toNat - 48))

/-- Python `int(s)` restricted to the validated all-digit strings the
`ipaddress` parsers feed it: `none` unless `s` is nonempty ASCII digits. -/
def toNatAscii (s : String) : Option Nat :=
  if !s.data.isEmpty && s.data.all Char.isDigit then some (decDigits s.data 0) else none

/-- One dotted-quad octet, as validated by `ipaddress`: ASCII digits only,
at most three of them, no leading zero, value at most 255. -/
def parseOctet (s : String) : Option Nat :=
  match toNatAscii s with
  | none => none
  | some n =>
    if s.data.length = 0 ∨ 3 < s.data.length then none
    else if 1 < s.data.length ∧ s.data.head? = some '0' then none
    else if 255 < n then none
    else some n

/-- Split a character list at a separator character (used for `'.'` and
`'/'`; Python splits the network text the same way). -/
def splitSepAux (sep : Char) : List Char → List Char → List String
  | [], acc => [String.mk acc.reverse]
  | c :: cs, acc =>
    if c = sep then String.mk acc.reverse :: splitSepAux sep cs []
    else splitSepAux sep cs (c :: acc)

/-- Split a string on every occurrence of a separator character. -/
def splitSep (sep : Char) (s : String) : List String :=
  splitSepAux sep s.data []

/-- Dotted-quad IPv4 address text to its 32-bit value. -/
def parseIPv4Addr (s : String) : Option Nat :=
  match (splitSep '.' s).mapM parseOctet with
  | some [a, b, c, d] => some (((a * 256 + b) * 256 + c) * 256 + d)
  | _ => none

/-- The mask-length part: ASCII digits with value at most the family
width. -/
def parseMaskLen (width : Nat) (s : String) : Option Nat :=
  match toNatAscii s with
  | none => none
  | some n => if n ≤ width then some n else none

/-- Structural equality test for `Except` results (the derived handler is
not available for the library type). -/
instance {ε α : Type} [DecidableEq ε] [DecidableEq α] : DecidableEq (Except ε α) := fun a b =>
  match a, b with
  | Except.error e, Except.error f =>
    if h : e = f then Decidable.isTrue (congrArg Except.error h)
    else Decidable.isFalse (fun hh => h (Except.error.inj hh))
  | Except.error _, Except.ok _ => Decidable.isFalse (fun hh => Except.noConfusion hh)
  | Except.ok _, Except.error _ => Decidable.isFalse (fun hh => Except.noConfusion hh)
  | Except.ok x, Except.ok y =>
    if h : x = y then Decidable.isTrue (congrArg Except.ok h)
    else Decidable.isFalse (fun hh => h (Except.ok.inj hh))

/-- `ipaddress.ip_network(text)` with default `strict=True`, for IPv4
dotted-quad text: `none` models the `ValueError` raised on malformed text
or on set host bits.  IPv6 literal text is not needed by any claim and is
modelled as a parse failure. -/
def ip_network (s : String) : Option IPNetwork :=
  match splitSep '/' s with
  | [addrStr] =>
    match parseIPv4Addr addrStr with
    | some a => some ⟨a, 32, false⟩
    | none => none
  | [addrStr, lenStr] =>
    match parseIPv4Addr addrStr, parseMaskLen 32 lenStr with
    | some a, some len =>
      if a % 2 ^ (32 - len) = 0 then some ⟨a, len, false⟩ else none
    | _, _ => none
  | _ => none

/-- `str(network)` for the IPv4 networks the model constructs: canonical
dotted quad plus `/` plus the mask length. -/
def ipNetworkStr (nw : IPNetwork) : String :=
  toString (nw.addr / 2 ^ 24 % 256) ++ "." ++ toString (nw.addr / 2 ^ 16 % 256) ++ "."
    ++ toString (nw.addr / 2 ^ 8 % 256) ++ "." ++ toString (nw.addr % 256)
    ++ "/" ++ toString nw.maskLen

/-! ### The per-file accumulator `to_import` -/

/-- The `to_import` defaultdict of `load_all`, for one address family:
`keys` are the ASNs seen, `pfx asn` is the ASN's prefix set (a Python
`set`), `ipc asn` its running `ipcount`.  Absent ASNs hold the default
`(∅, 0)`. -/
structure ToImport where
  keys : Finset String
  pfx : String → Finset String
  ipc : String → Nat

/-- The defaultdict before any pair is processed. -/
def ToImport.empty : ToImport :=
  ⟨∅, fun _ => ∅, fun _ => 0⟩

/-- One iteration of `for prefix, asn in entries`: parse the prefix
(`ValueError` aborts the family), add `str(network)` to the ASN's set, and
unconditionally add `network.num_addresses` to the ASN's `ipcount`. -/
def addPair (ti : ToImport) (pr : String × String) : Except PyError ToImport :=
  match ip_network pr.1 with
  | none => Except.error PyError.valueError
  | some nw =>
    Except.ok
      ⟨insert pr.2 ti.keys,
       fun a => if a = pr.2 then insert (ipNetworkStr nw) (ti.pfx a) else ti.pfx a,
       fun a => if a = pr.2 then ti.ipc a + numAddresses nw else ti.ipc a⟩

/-- The whole `for prefix, asn in entries` loop. -/
def buildToImport (ti : ToImport) : List (String × String) → Except PyError ToImport
  | [] => Except.ok ti
  | p :: ps =>
    match addPair ti p with
    | Except.error e => Except.error e
    | Except.ok ti2 => buildToImport ti2 ps

/-! ### The Redis store -/

/-- The two address families, the keys of `routeview`'s `routes` dict. -/
inductive Family
  | v4
  | v6
  deriving DecidableEq, Repr

/-- The Redis keys the loader touches, as explicit state:
`dates f` is the set `…|f|dates`, `asns f d` the set `…|f|d|asns`,
`prefixes f d a` the set `…|f|d|a`, `ipcount f d a` the string key
`…|f|d|a|ipcount`, `last f` the string key `…|f|last`. -/
@[ext]
structure StoreState where
  dates : Family → Finset String
  asns : Family → String → Finset String
  prefixes : Family → String → String → Finset String
  ipcount : Family → String → String → Option Nat
  last : Family → Option String

/-- A store with no key set. -/
def emptyStore : StoreState :=
  ⟨fun _ => ∅, fun _ _ => ∅, fun _ _ _ => ∅, fun _ _ _ => none, fun _ => none⟩

/-- `RipeLoader.already_loaded`: membership of the date in both families'
loaded-dates sets. -/
def already_loaded (st : StoreState) (date : String) : Bool :=
  decide (date ∈ st.dates Family.v4) && decide (date ∈ st.dates Family.v6)

/-- Python string comparison `<` on the underlying character lists:
lexicographic by code point, as an executable Boolean.  (The library
decision procedure for `String` order does not reduce in the kernel; this
function does, and is proved to agree with `<` below.) -/
def listLtB : List Char → List Char → Bool
  | [], [] => false
  | [], _ :: _ => true
  | _ :: _, [] => false
  | a :: as, b :: bs =>
    if a < b then true
    else if b < a then false
    else listLtB as bs

/-- The value `RipeLoader.update_last` leaves under `…|last`: the stored
date is replaced when it is missing, empty (Python falsiness of `''`) or
lexicographically smaller than the committed date. -/
def updateLastVal (cur : Option String) (date : String) : String :=
  match cur with
  | none => date
  | some c => if c.data.isEmpty || listLtB c.data date.data then date else c

/-- `RipeLoader.update_last` on the store. -/
def update_last (st : StoreState) (fam : Family) (date : String) : StoreState :=
  { st with last := fun f => if f = fam then some (updateLastVal (st.last fam) date) else st.last f }

/-- The pipeline body of `load_all` for one family: `sadd` the date to the
family's loaded-dates set, `sadd` the ASN keys, and per ASN `sadd` the
prefix set and `set` (overwrite) the `ipcount` scalar. -/
def commitFamily (st : StoreState) (fam : Family) (date : String) (ti : ToImport) : StoreState where
  dates := fun f => if f = fam then insert date (st.dates f) else st.dates f
  asns := fun f d => if f = fam ∧ d = date then st.asns f d ∪ ti.keys else st.asns f d
  prefixes := fun f d a =>
    if f = fam ∧ d = date ∧ a ∈ ti.keys then st.prefixes f d a ∪ ti.pfx a else st.prefixes f d a
  ipcount := fun f d a =>
    if f = fam ∧ d = date ∧ a ∈ ti.keys then some (ti.ipc a) else st.ipcount f d a
  last := st.last

/-- The successful tail of one family's turn: the pipeline `execute`
(`commitFamily`) followed by `update_last`. -/
def writeFamily (st : StoreState) (fam : Family) (date : String) (ti : ToImport) : StoreState :=
  update_last (commitFamily st fam date ti) fam date

/-- One family's turn of the `for address_family, entries in routes.items()`
loop: build `to_import` (a `ValueError` leaves that family uncommitted),
then the pipeline `execute` followed by `update_last`. -/
def loadFamily (st : StoreState) (fam : Family) (date : String)
    (pairs : List (String × String)) : StoreState × Option PyError :=
  match buildToImport ToImport.empty pairs with
  | Except.error e => (st, some e)
  | Except.ok ti => (writeFamily st fam date ti, none)

/-- The whole `routes.items()` loop: v4 first, then v6 (dict insertion
order); an exception in the v4 turn leaves v6 unprocessed. -/
def loadRoutes (st : StoreState) (date : String) (routes : RVState) : StoreState × Option PyError :=
  match loadFamily st Family.v4 date routes.v4 with
  | (st1, some e) => (st1, some e)
  | (st1, none) => loadFamily st1 Family.v6 date routes.v6

/-! ### The load_all file loop -/

/-- One candidate dump file: its date (as `load_all` derives it from the
file name, already in ISO form) and the decoder's verdict — either a
`DecodeError` or the decoded entry list `routeview` iterates. -/
structure Candidate where
  date : String
  dump : Except PyError (List MrtBody)

/-- `routeview(path)` for a candidate: a decode failure propagates, else
the entry loop runs. -/
def runRouteview (c : Candidate) : Except PyError RVState :=
  match c.dump with
  | Except.error e => Except.error e
  | Except.ok entries => routeview entries

/-- The skip-too-old test of `load_all`: `oldest_to_load` is the cached
`META:expected_interval` `first` field (`none` when the hash field is
missing); Python falsiness makes an empty string no bound at all. -/
def skipOld (oldest : Option String) (date : String) : Bool :=
  match oldest with
  | none => false
  | some o => !o.data.isEmpty && listLtB date.data o.data

/-- What one `load_all` pass did: the final store, the dates of the files
actually handed to `routeview`, and the exception that escaped the pass,
if any. -/
structure LoadAllResult where
  st : StoreState
  parsed : List String
  err : Option PyError

/-- The `for path in sorted(...)` loop of `RipeLoader.load_all`, over the
candidate list (file discovery and name parsing are external): skip
too-old and already-loaded candidates without decoding; otherwise run
`routeview` and commit both families; an uncaught exception ends the
pass. -/
def load_all (oldest : Option String) (st : StoreState) : List Candidate → LoadAllResult
  | [] => ⟨st, [], none⟩
  | c :: cs =>
    if skipOld oldest c.date then load_all oldest st cs
    else if already_loaded st c.date then load_all oldest st cs
    else
      match runRouteview c with
      | Except.error e => ⟨st, [c.date], some e⟩
      | Except.ok routes =>
        match loadRoutes st c.date routes with
        | (st1, some e) => ⟨st1, [c.date], some e⟩
        | (st1, none) =>
          let r := load_all oldest st1 cs
          ⟨r.st, c.date :: r.parsed, r.err⟩

/-! ### Evaluation helpers and concrete fixtures -/

/-- `ipcount` of an ASN out of a possibly-failed `to_import` build. -/
def ipcOf (r : Except PyError ToImport) (a : String) : Nat :=
  match r with
  | Except.ok ti => ti.ipc a
  | Except.error _ => 0

/-- Prefix set of an ASN out of a possibly-failed `to_import` build. -/
def pfxOf (r : Except PyError ToImport) (a : String) : Finset String :=
  match r with
  | Except.ok ti => ti.pfx a
  | Except.error _ => ∅

/-- Address count a prefix string contributes (0 when unparsable). -/
def addrCount (s : String) : Nat :=
  match ip_network s with
  | some nw => numAddresses nw
  | none => 0

/-- The duplicated-prefix aggregation input of the ip-counting claim:
`10.0.0.0/24` and `10.0.1.0/24` plus a repeated `10.0.0.0/24`, all under
ASN 65000. -/
def exDup : List (String × String) :=
  [("10.0.0.0/24", "65000"), ("10.0.1.0/24", "65000"), ("10.0.0.0/24", "65000")]

/-- A TableDumpV2 entry whose single AS path resolves (origin 64500). -/
def eGood : MrtBody :=
  MrtBody.v2 ⟨"10.1.0.0", 16, ["64511 64500"], 2⟩

/-- A TableDumpV2 entry whose single AS path has no qualifying token. -/
def eBogus : MrtBody :=
  MrtBody.v2 ⟨"10.0.0.0", 24, ["\x7bbogus\x7d"], 2⟩

/-- A TableDumpV2 entry with an empty `routeEntries` sequence. -/
def eNoRoutes : MrtBody :=
  MrtBody.v2 ⟨"10.2.0.0", 24, [], 2⟩

/-- A candidate file whose decode fails. -/
def cFail : Candidate :=
  ⟨"2024-06-02T00:00:00", Except.error PyError.decodeError⟩

/-- A later (older-dated) candidate that would load fine. -/
def cOk : Candidate :=
  ⟨"2024-06-01T00:00:00", Except.ok [eGood]⟩


end RipeLoader

namespace RipeLoader


end RipeLoader

namespace RipeLoader

/-! ### Order facts about ISO date strings -/

theorem not_list_lt_nil (l : List Char) : ¬ l < ([] : List Char) := by
  intro h
  cases h

theorem not_lt_empty (s : String) : ¬ s < "" := by
  rw [String.lt_iff_toList_lt]
  exact not_list_lt_nil s.toList

theorem empty_le (s : String) : "" ≤ s :=
  not_lt_empty s

theorem eq_empty_of_data_isEmpty (s : String) (h : s.data.isEmpty = true) : s = "" := by
  obtain ⟨l⟩ := s
  cases l with
  | nil => rfl
  | cons c cs => simp at h

/-! ### The Boolean comparison agrees with the String order -/

theorem listLtB_iff_lt (l1 : List Char) : ∀ l2 : List Char, listLtB l1 l2 = true ↔ List.lt l1 l2 := by
  induction l1 with
  | nil =>
    intro l2
    cases l2 with
    | nil => exact iff_of_false (by simp [listLtB]) (fun h => by cases h)
    | cons b bs => exact iff_of_true (by simp [listLtB]) (List.lt.nil b bs)
  | cons a as ih =>
    intro l2
    cases l2 with
    | nil => exact iff_of_false (by simp [listLtB]) (fun h => by cases h)
    | cons b bs =>
      by_cases hab : a < b
      · exact iff_of_true (by simp [listLtB, hab]) (List.lt.head as bs hab)
      · by_cases hba : b < a
        · refine iff_of_false (by simp [listLtB, hab, hba]) (fun h => ?_)
          cases h with
          | head _ _ h1 => exact hab h1
          | tail h1 h2 h3 => exact h2 hba
        · constructor
          · intro hb
            have hb2 : listLtB as bs = true := by simpa [listLtB, hab, hba] using hb
            exact List.lt.tail hab hba ((ih bs).mp hb2)
          · intro h
            cases h with
            | head _ _ h1 => exact absurd h1 hab
            | tail h1 h2 h3 =>
              simpa [listLtB, hab, hba] using (ih bs).mpr h3

theorem listLtB_lt_iff (s t : String) : listLtB s.data t.data = true ↔ s < t := by
  have h1 : s < t ↔ List.Lex (fun a b : Char => a < b) s.data t.data := String.lt_iff_toList_lt
  have h2 : List.lt s.data t.data ↔ List.Lex (fun a b : Char => a < b) s.data t.data :=
    List.lt_iff_lex_lt s.data t.data
  rw [h1, ← h2]
  exact listLtB_iff_lt s.data t.data

/-! ### The last-date pointer value -/

theorem updateLastVal_some_eq_max (c date : String) :
    updateLastVal (some c) date = max c date := by
  by_cases he : c.data.isEmpty = true
  · have hc : c = "" := eq_empty_of_data_isEmpty c he
    subst hc
    have hv : updateLastVal (some "") date = date := by
      show (if (("" : String).data.isEmpty || listLtB ("" : String).data date.data) = true
          then date else ("" : String)) = date
      exact if_pos (by simp)
    rw [hv]
    exact (max_eq_right (empty_le date)).symm
  · by_cases hlt : c < date
    · have hb : listLtB c.data date.data = true := (listLtB_lt_iff c date).mpr hlt
      have hv : updateLastVal (some c) date = date := by
        show (if (c.data.isEmpty || listLtB c.data date.data) = true then date else c) = date
        exact if_pos (by rw [hb]; simp)
      rw [hv]
      exact (max_eq_right (le_of_lt hlt)).symm
    · have hb : listLtB c.data date.data = false := by
        cases hbb : listLtB c.data date.data
        · rfl
        · exact absurd ((listLtB_lt_iff c date).mp hbb) hlt
      have hv : updateLastVal (some c) date = c := by
        show (if (c.data.isEmpty || listLtB c.data date.data) = true then date else c) = c
        refine if_neg ?_
        rw [hb]
        simp [he]
      rw [hv]
      exact (max_eq_left (le_of_not_lt hlt)).symm

theorem updateLastVal_idem (cur : Option String) (date : String) :
    updateLastVal (some (updateLastVal cur date)) date = updateLastVal cur date := by
  cases cur with
  | none =>
    show (if (date.data.isEmpty || listLtB date.data date.data) = true then date else date) = date
    exact ite_self date
  | some c =>
    by_cases h : (c.data.isEmpty || listLtB c.data date.data) = true
    · have hx : updateLastVal (some c) date = date := by
        show (if (c.data.isEmpty || listLtB c.data date.data) = true then date else c) = date
        exact if_pos h
      rw [hx]
      show (if (date.data.isEmpty || listLtB date.data date.data) = true then date else date) = date
      exact ite_self date
    · have hx : updateLastVal (some c) date = c := by
        show (if (c.data.isEmpty || listLtB c.data date.data) = true then date else c) = c
        exact if_neg h
      rw [hx]
      exact hx

/-! ### Field views of a family write -/

theorem writeFamily_dates (st : StoreState) (fam : Family) (date : String) (ti : ToImport)
    (f : Family) :
    (writeFamily st fam date ti).dates f
      = if f = fam then insert date (st.dates f) else st.dates f := rfl

theorem writeFamily_asns (st : StoreState) (fam : Family) (date : String) (ti : ToImport)
    (f : Family) (d : String) :
    (writeFamily st fam date ti).asns f d
      = if f = fam ∧ d = date then st.asns f d ∪ ti.keys else st.asns f d := rfl

theorem writeFamily_prefixes (st : StoreState) (fam : Family) (date : String) (ti : ToImport)
    (f : Family) (d a : String) :
    (writeFamily st fam date ti).prefixes f d a
      = if f = fam ∧ d = date ∧ a ∈ ti.keys then st.prefixes f d a ∪ ti.pfx a
        else st.prefixes f d a := rfl

theorem writeFamily_ipcount (st : StoreState) (fam : Family) (date : String) (ti : ToImport)
    (f : Family) (d a : String) :
    (writeFamily st fam date ti).ipcount f d a
      = if f = fam ∧ d = date ∧ a ∈ ti.keys then some (ti.ipc a) else st.ipcount f d a := rfl

theorem writeFamily_last (st : StoreState) (fam : Family) (date : String) (ti : ToImport)
    (f : Family) :
    (writeFamily st fam date ti).last f
      = if f = fam then some (updateLastVal (st.last fam) date) else st.last f := rfl

theorem writeFamily_idem (st : StoreState) (fam : Family) (date : String) (ti : ToImport) :
    writeFamily (writeFamily st fam date ti) fam date ti = writeFamily st fam date ti := by
  refine StoreState.ext ?_ ?_ ?_ ?_ ?_
  · funext f
    simp only [writeFamily_dates]
    by_cases h : f = fam <;> simp [h]
  · funext f d
    simp only [writeFamily_asns]
    by_cases h : f = fam ∧ d = date <;> simp [h, Finset.union_assoc]
  · funext f d a
    simp only [writeFamily_prefixes]
    by_cases h : f = fam ∧ d = date ∧ a ∈ ti.keys <;> simp [h, Finset.union_assoc]
  · funext f d a
    simp only [writeFamily_ipcount]
    by_cases h : f = fam ∧ d = date ∧ a ∈ ti.keys <;> simp [h]
  · funext f
    simp only [writeFamily_last]
    by_cases h : f = fam <;> simp [h, updateLastVal_idem]

theorem writeFamily_comm (st : StoreState) (f1 : Family) (d1 : String) (t1 : ToImport)
    (f2 : Family) (d2 : String) (t2 : ToImport) (hne : f1 ≠ f2) :
    writeFamily (writeFamily st f1 d1 t1) f2 d2 t2
      = writeFamily (writeFamily st f2 d2 t2) f1 d1 t1 := by
  have hne2 : f2 ≠ f1 := fun hh => hne hh.symm
  refine StoreState.ext ?_ ?_ ?_ ?_ ?_
  · funext f
    simp only [writeFamily_dates]
    by_cases h1 : f = f1
    · have h2 : ¬ f = f2 := by rw [h1]; exact hne
      simp [h1, h2, hne, hne2]
    · by_cases h2 : f = f2 <;> simp [h1, h2, hne, hne2]
  · funext f d
    simp only [writeFamily_asns]
    by_cases h1 : f = f1
    · have h2 : ¬ f = f2 := by rw [h1]; exact hne
      simp [h1, h2, hne, hne2]
    · by_cases h2 : f = f2 <;> simp [h1, h2, hne, hne2]
  · funext f d a
    simp only [writeFamily_prefixes]
    by_cases h1 : f = f1
    · have h2 : ¬ f = f2 := by rw [h1]; exact hne
      simp [h1, h2, hne, hne2]
    · by_cases h2 : f = f2 <;> simp [h1, h2, hne, hne2]
  · funext f d a
    simp only [writeFamily_ipcount]
    by_cases h1 : f = f1
    · have h2 : ¬ f = f2 := by rw [h1]; exact hne
      simp [h1, h2, hne, hne2]
    · by_cases h2 : f = f2 <;> simp [h1, h2, hne, hne2]
  · funext f
    simp only [writeFamily_last]
    by_cases h1 : f = f1
    · have h2 : ¬ f = f2 := by rw [h1]; exact hne
      simp [h1, h2, hne, hne2]
    · by_cases h2 : f = f2 <;> simp [h1, h2, hne, hne2]

/-! ### The ipcount accumulator as a sum over occurrences -/

theorem buildToImport_ipc (pairs : List (String × String)) :
    ∀ (ti0 ti : ToImport) (a : String), buildToImport ti0 pairs = Except.ok ti →
      ti.ipc a = ti0.ipc a
        + ((pairs.filter (fun e => e.2 = a)).map (fun e => addrCount e.1)).sum := by
  induction pairs with
  | nil =>
    intro ti0 ti a h
    unfold buildToImport at h
    obtain rfl := Except.ok.inj h
    simp
  | cons p ps ih =>
    intro ti0 ti a h
    unfold buildToImport at h
    cases hp : addPair ti0 p with
    | error e => rw [hp] at h; exact Except.noConfusion h
    | ok ti1 =>
      rw [hp] at h
      have hrec := ih ti1 ti a h
      unfold addPair at hp
      cases hnw : ip_network p.1 with
      | none => rw [hnw] at hp; exact Except.noConfusion hp
      | some nw =>
        rw [hnw] at hp
        obtain rfl := Except.ok.inj hp
        by_cases ha : p.2 = a
        · subst ha
          have haC : addrCount p.1 = numAddresses nw := by simp [addrCount, hnw]
          rw [hrec]
          simp [List.filter_cons, haC, Nat.add_assoc]
        · have ha2 : ¬ a = p.2 := fun hh => ha hh.symm
          rw [hrec]
          simp [List.filter_cons, ha, ha2]

end RipeLoader

namespace RipeLoader

/-! ## Claim theorems -/

/-- C1 (counterexample). Aggregating `10.0.0.0/24`, `10.0.1.0/24` and a
repeated `10.0.0.0/24` under ASN 65000 leaves the prefix set at the two
distinct prefixes, whose distinct-sum is 512, but drives the stored
ipcount to 768: the duplicate occurrence is counted again, so the final
ipcount is not the sum over the distinct prefixes. -/
theorem C1_counterexample :
    ipcOf (buildToImport ToImport.empty exDup) "65000" = 768
    ∧ ipcOf (buildToImport ToImport.empty exDup) "65000" ≠ 512
    ∧ "10.0.0.0/24" ∈ pfxOf (buildToImport ToImport.empty exDup) "65000"
    ∧ "10.0.1.0/24" ∈ pfxOf (buildToImport ToImport.empty exDup) "65000"
    ∧ (pfxOf (buildToImport ToImport.empty exDup) "65000").card = 2
    ∧ addrCount "10.0.0.0/24" + addrCount "10.0.1.0/24" = 512 :=
  ⟨by decide, by decide, by decide, by decide, by decide, by decide⟩

/-- C1 (amended). For every ASN aggregate built while loading one file for
one address family, the final ipcount equals the sum of
`2^(addressWidth - prefixLength)` over all occurrences of pairs attributed
to that ASN — a repeated prefix is counted again, so the three-pair
example yields 768 rather than 512. -/
theorem C1_amended_ipcount :
    (∀ (pairs : List (String × String)) (a : String),
        (buildToImport ToImport.empty pairs).isOk = true →
        ipcOf (buildToImport ToImport.empty pairs) a
          = ((pairs.filter (fun e => e.2 = a)).map (fun e => addrCount e.1)).sum)
    ∧ ipcOf (buildToImport ToImport.empty exDup) "65000" = 768 := by
  constructor
  · intro pairs a h
    cases hb : buildToImport ToImport.empty pairs with
    | error e => rw [hb] at h; exact absurd h (by simp [Except.isOk, Except.toBool])
    | ok ti =>
      have hsum := buildToImport_ipc pairs ToImport.empty ti a hb
      simpa [ipcOf, ToImport.empty] using hsum
  · decide

theorem C1_amended_ipcount_witness :
    ipcOf (buildToImport ToImport.empty exDup) "65000"
      = ((exDup.filter (fun e => e.2 = "65000")).map (fun e => addrCount e.1)).sum :=
  C1_amended_ipcount.1 exDup "65000" (by decide)

/-- C2 (counterexample). On the AS path `64511 64512 {64513,64514}` the
resolver does not return `64513,64514`: the stripped inner text contains a
comma, fails the all-digits test, and the scan moves on to `64512`. -/
theorem C2_counterexample :
    resolveOrigin (pySplit "64511 64512 \x7b64513,64514\x7d") ≠ some "64513,64514"
    ∧ resolveOrigin (pySplit "64511 64512 \x7b64513,64514\x7d") = some "64512" :=
  ⟨by decide, by decide⟩

/-- C2 (amended). On `64511 64512 {64513,64514}` the resolver returns
`64512`: stripping the braces yields `64513,64514`, which is not all
decimal digits (the comma), so the AS-SET token does not qualify and the
scan continues leftward; a singleton AS-SET such as `{64513}` does qualify
and its stripped inner text is returned verbatim. -/
theorem C2_amended_asset :
    resolveOrigin (pySplit "64511 64512 \x7b64513,64514\x7d") = some "64512"
    ∧ stripEnds "\x7b64513,64514\x7d" = "64513,64514"
    ∧ isnumeric "64513,64514" = false
    ∧ resolveOrigin (pySplit "64511 64512 \x7b64513\x7d") = some "64513" :=
  ⟨by decide, by decide, by decide, by decide⟩

/-- C3 (code evaluation at the failing input). When no token of the last
AS path qualifies, the entry is not silently skipped: with no previously
resolved entry the append reads the never-bound `best_as` and the file
fails with `NameError`; after a previously resolved entry the prefix is
appended under the stale previous origin (here the unresolvable
`10.0.0.0/24` is attributed to `64500`, the origin of the preceding
entry). -/
theorem C3_unresolved_origin_eval :
    routeview [eBogus] = Except.error PyError.nameError
    ∧ routeview [eGood, eBogus]
        = Except.ok ⟨[("10.1.0.0/16", "64500"), ("10.0.0.0/24", "64500")], [], some "64500"⟩
    ∧ resolveOrigin (pySplit "\x7bbogus\x7d") = none :=
  ⟨by decide, by decide, by decide⟩

/-- C4. Loading the same routes twice for the same date is idempotent:
prefixes are committed with set union, the ipcount scalar is overwritten,
and the last pointer is a maximum, so a second identical load leaves every
key of the store unchanged. -/
theorem C4_reload_idempotent :
    ∀ (st : StoreState) (date : String) (routes : RVState) (st2 : StoreState),
      loadRoutes st date routes = (st2, none) →
      loadRoutes st2 date routes = (st2, none) := by
  intro st date routes st2 h
  unfold loadRoutes loadFamily at h ⊢
  cases h4 : buildToImport ToImport.empty routes.v4 with
  | error e =>
    rw [h4] at h
    exact absurd (congrArg Prod.snd h) (by simp)
  | ok t4 =>
    rw [h4] at h
    cases h6 : buildToImport ToImport.empty routes.v6 with
    | error e =>
      rw [h6] at h
      exact absurd (congrArg Prod.snd h) (by simp)
    | ok t6 =>
      rw [h6] at h
      have hs : writeFamily (writeFamily st Family.v4 date t4) Family.v6 date t6 = st2 :=
        congrArg Prod.fst h
      subst hs
      show (writeFamily (writeFamily (writeFamily (writeFamily st Family.v4 date t4)
            Family.v6 date t6) Family.v4 date t4) Family.v6 date t6,
          (none : Option PyError))
        = (writeFamily (writeFamily st Family.v4 date t4) Family.v6 date t6, none)
      rw [writeFamily_comm (writeFamily st Family.v4 date t4) Family.v6 date t6
            Family.v4 date t4 (by decide)]
      rw [writeFamily_idem st Family.v4 date t4]
      rw [writeFamily_idem (writeFamily st Family.v4 date t4) Family.v6 date t6]

/-- Concrete routes used to instantiate the idempotence theorem. -/
def rIdem : RVState :=
  ⟨[("10.0.0.0/24", "65000")], [("10.2.0.0/16", "65001")], some "65000"⟩

theorem C4_reload_idempotent_witness :
    loadRoutes (loadRoutes emptyStore "2024-06-01T00:00:00" rIdem).1 "2024-06-01T00:00:00" rIdem
      = ((loadRoutes emptyStore "2024-06-01T00:00:00" rIdem).1, none) :=
  C4_reload_idempotent emptyStore "2024-06-01T00:00:00" rIdem _ rfl

/-- C5. `already_loaded` holds exactly when both families record the date,
and committing a single family for a date whose counterpart family has not
recorded it leaves `already_loaded` false. -/
theorem C5_completeness_gate :
    (∀ (st : StoreState) (d : String),
        already_loaded st d = true ↔ (d ∈ st.dates Family.v4 ∧ d ∈ st.dates Family.v6))
    ∧ (∀ (st : StoreState) (d : String) (pairs : List (String × String)),
        d ∉ st.dates Family.v6 →
        already_loaded (loadFamily st Family.v4 d pairs).1 d = false)
    ∧ (∀ (st : StoreState) (d : String) (pairs : List (String × String)),
        d ∉ st.dates Family.v4 →
        already_loaded (loadFamily st Family.v6 d pairs).1 d = false) := by
  refine ⟨fun st d => ?_, fun st d pairs h => ?_, fun st d pairs h => ?_⟩
  · simp [already_loaded]
  · cases hb : buildToImport ToImport.empty pairs with
    | error e => simp [loadFamily, hb, already_loaded, h]
    | ok ti => simp [loadFamily, hb, already_loaded, writeFamily_dates, h]
  · cases hb : buildToImport ToImport.empty pairs with
    | error e => simp [loadFamily, hb, already_loaded, h]
    | ok ti => simp [loadFamily, hb, already_loaded, writeFamily_dates, h]

theorem C5_completeness_gate_witness :
    already_loaded (loadFamily emptyStore Family.v4 "2024-06-01T00:00:00"
        [("10.0.0.0/24", "65000")]).1 "2024-06-01T00:00:00" = false :=
  C5_completeness_gate.2.1 emptyStore "2024-06-01T00:00:00" [("10.0.0.0/24", "65000")] (by decide)

/-- C6. The per-family last pointer is the lexicographic maximum of its
previous value and the committed date (so it never moves backward), and a
missing pointer is initialised to the committed date. -/
theorem C6_last_pointer_monotone :
    (∀ cur date : String,
        updateLastVal (some cur) date = max cur date
        ∧ cur ≤ updateLastVal (some cur) date)
    ∧ (∀ date : String, updateLastVal none date = date)
    ∧ (∀ (st : StoreState) (fam : Family) (date : String),
        (update_last st fam date).last fam = some (updateLastVal (st.last fam) date)) := by
  refine ⟨fun cur date => ⟨updateLastVal_some_eq_max cur date, ?_⟩,
    fun date => rfl, fun st fam date => ?_⟩
  · rw [updateLastVal_some_eq_max]
    exact le_max_left cur date
  · simp [update_last]

/-- C7 (counterexample). With a decode-failing newer file ahead of a
loadable older file, the pass ends at the failure: the second candidate is
never handed to the parser and its date is never marked loaded within the
same pass. -/
theorem C7_counterexample :
    (load_all none emptyStore [cFail, cOk]).err = some PyError.decodeError
    ∧ (load_all none emptyStore [cFail, cOk]).parsed = [cFail.date]
    ∧ already_loaded (load_all none emptyStore [cFail, cOk]).st cOk.date = false :=
  ⟨by decide, by decide, by decide⟩

/-- C7 (amended). A failure while loading one file aborts the remainder of
that `load_all` pass, at either stage: a decode failure in the parser ends
the pass with the store exactly as it was, and an aggregation failure (a
malformed prefix raising `ValueError` inside a family's `to_import` build)
ends the pass with whatever the file had committed up to the failing
family — in both cases only the failing file was touched and the remaining
candidates are left unprocessed; since the file's date was never marked
loaded, a later pass reattempts it. -/
theorem C7_amended_abort :
    (∀ (oldest : Option String) (st : StoreState) (c : Candidate) (cs : List Candidate)
        (e : PyError),
      skipOld oldest c.date = false → already_loaded st c.date = false →
      runRouteview c = Except.error e →
      load_all oldest st (c :: cs) = ⟨st, [c.date], some e⟩)
    ∧ (∀ (oldest : Option String) (st st1 : StoreState) (c : Candidate)
        (cs : List Candidate) (routes : RVState) (e : PyError),
      skipOld oldest c.date = false → already_loaded st c.date = false →
      runRouteview c = Except.ok routes →
      loadRoutes st c.date routes = (st1, some e) →
      load_all oldest st (c :: cs) = ⟨st1, [c.date], some e⟩) := by
  constructor
  · intro oldest st c cs e h1 h2 h3
    simp [load_all, h1, h2, h3]
  · intro oldest st st1 c cs routes e h1 h2 h3 h4
    simp [load_all, h1, h2, h3, h4]

/-- A candidate whose routes aggregate to a malformed prefix: the v2 entry
carries host bits under a /24 mask, so strict `ip_network("10.0.0.1/24")`
raises `ValueError` during the v4 family's `to_import` build. -/
def cBadPfx : Candidate :=
  ⟨"2024-06-03T00:00:00", Except.ok [MrtBody.v2 ⟨"10.0.0.1", 24, ["64511 64500"], 2⟩]⟩

theorem C7_amended_abort_witness :
    load_all none emptyStore [cFail, cOk] = ⟨emptyStore, [cFail.date], some PyError.decodeError⟩
    ∧ load_all none emptyStore [cBadPfx, cOk]
        = ⟨emptyStore, [cBadPfx.date], some PyError.valueError⟩ :=
  ⟨C7_amended_abort.1 none emptyStore cFail [cOk] PyError.decodeError (by decide) (by decide)
      (by decide),
    C7_amended_abort.2 none emptyStore emptyStore cBadPfx [cOk]
      ⟨[("10.0.0.1/24", "64500")], [], some "64500"⟩ PyError.valueError (by decide) (by decide)
      (by decide) rfl⟩

/-- C8. A candidate strictly older than the configured oldest date of
interest is skipped without being handed to the parser (the loop step is
the identity on it), a date strictly below the bound does trigger the
skip, and a date equal to or above the bound never does. -/
theorem C8_skip_too_old :
    (∀ (oldest : Option String) (st : StoreState) (c : Candidate) (cs : List Candidate),
        skipOld oldest c.date = true →
        load_all oldest st (c :: cs) = load_all oldest st cs)
    ∧ (∀ o d : String, d < o → skipOld (some o) d = true)
    ∧ (∀ o d : String, o ≤ d → skipOld (some o) d = false) := by
  refine ⟨fun oldest st c cs h => ?_, fun o d h => ?_, fun o d h => ?_⟩
  · simp [load_all, h]
  · have ho : ¬ o.data.isEmpty = true := by
      intro he
      rw [eq_empty_of_data_isEmpty o he] at h
      exact not_lt_empty d h
    have hb : listLtB d.data o.data = true := (listLtB_lt_iff d o).mpr h
    simp [skipOld, ho, hb]
  · have hnlt : ¬ d < o := not_lt.mpr h
    have hb : listLtB d.data o.data = false := by
      cases hbb : listLtB d.data o.data
      · rfl
      · exact absurd ((listLtB_lt_iff d o).mp hbb) hnlt
    simp [skipOld, hb]

/-- A candidate dated before the 2024-06-01 bound, used as the skip witness. -/
def cOld : Candidate :=
  ⟨"2024-05-31T23:59:59", Except.error PyError.decodeError⟩

theorem C8_skip_too_old_witness :
    load_all (some "2024-06-01T00:00:00") emptyStore [cOld]
      = load_all (some "2024-06-01T00:00:00") emptyStore [] :=
  C8_skip_too_old.1 (some "2024-06-01T00:00:00") emptyStore cOld [] (by decide)

/-- C9. A table-dump-v1 entry is skipped by the isinstance guard: the loop
step returns the state unchanged with no error, so the run over a list is
unaffected by v1 entries. -/
theorem C9_v1_skipped :
    ∀ (st : RVState) (es : List MrtBody),
      routeviewStep st MrtBody.v1 = Except.ok st
      ∧ routeviewRun st (MrtBody.v1 :: es) = routeviewRun st es :=
  fun _ _ => ⟨rfl, rfl⟩

/-- C10. For a table-dump-v2 entry with an empty routeEntries sequence,
selecting the last AS path indexes an empty list: the step reaches the
IndexError branch instead of skipping the entry or yielding a route. -/
theorem C10_empty_route_entries :
    ∀ (st : RVState) (b : TableDumpV2Body), b.routeEntries = [] →
      routeviewStep st (MrtBody.v2 b) = Except.error PyError.indexError := by
  intro st b h
  obtain ⟨pa, pl, re, af⟩ := b
  have h2 : re = [] := h
  subst h2
  rfl

theorem C10_empty_route_entries_witness :
    routeviewStep ⟨[], [], none⟩ eNoRoutes = Except.error PyError.indexError :=
  C10_empty_route_entries ⟨[], [], none⟩ ⟨"10.2.0.0", 24, [], 2⟩ rfl

end RipeLoader
